import Mathlib

/-!
# Aurora Finance store — formal model

A shallow embedding of the central state store of the Aurora Finance
application (`src/app/src/store/use-app-store.ts`) together with proofs
about its operations.

Modelling conventions:
* JavaScript strings are Lean `String`s; `String.prototype.trim` and
  `String.prototype.toLowerCase` are embedded as list-of-character
  functions (`jsTrim`, `jsToLower`) covering the ASCII behaviour the
  store relies on.
* JavaScript numbers are modelled as `Rat` (the store only compares and
  stores them; no float rounding is exercised by any operation).
* `nanoid()` and `new Date().toISOString()` are nondeterministic inputs;
  each operation that consumes them takes them as explicit parameters.
* A `throw` is modelled by returning `Except.error msg` paired with the
  unchanged pre-state (the source validates before any `set` call, so a
  throwing call leaves the zustand store untouched).
* JavaScript truthiness tests on optional strings (`if (id)`,
  `if (transaction?.receiptId)`) are modelled faithfully: `none` and
  `some ""` are both falsy.
-/

namespace AuroraFinance

/-! ## JavaScript string primitives -/

/-- Character-level whitespace test used by `String.prototype.trim`
(ASCII whitespace characters). -/
def jsWhitespace (c : Char) : Bool :=
  c.toNat = 32 || c.toNat = 9 || c.toNat = 10 || c.toNat = 13 || c.toNat = 11 || c.toNat = 12

/-- ASCII lower-casing of one character, as performed by
`String.prototype.toLowerCase` on ASCII input. -/
def lowerChar (c : Char) : Char :=
  if 65 ≤ c.toNat ∧ c.toNat ≤ 90 then Char.ofNat (c.toNat + 32) else c

/-- Remove leading and trailing whitespace from a character list. -/
def trimChars (l : List Char) : List Char :=
  ((l.dropWhile jsWhitespace).reverse.dropWhile jsWhitespace).reverse

/-- Embedding of `String.prototype.trim`. -/
def jsTrim (s : String) : String := ⟨trimChars s.data⟩

/-- Embedding of `String.prototype.toLowerCase` (ASCII). -/
def jsToLower (s : String) : String := ⟨s.data.map lowerChar⟩

/-- Embedding of `email.trim().toLowerCase()` — the email normalisation used by
`selectUserByEmail` and `signUp`. -/
def normalizeEmail (s : String) : String := jsToLower (jsTrim s)

/-! ## Data model (`use-app-store.ts` types) -/

inductive PlanTier
  | free
  | premium
deriving DecidableEq, Repr

inductive SubscriptionStatus
  | active
  | past_due
deriving DecidableEq, Repr

structure UserSettings where
  currency : String
  notifications : Bool
  darkMode : Bool
  haptics : Bool
deriving DecidableEq, Repr

structure Subscription where
  tier : PlanTier
  renewalDate : Option String
  status : SubscriptionStatus
deriving DecidableEq, Repr

structure User where
  id : String
  email : String
  name : String
  passwordHash : String
  createdAt : String
  subscription : Subscription
  settings : UserSettings
  categories : List String
deriving DecidableEq, Repr

structure Receipt where
  id : String
  fileName : String
  dataUrl : String
  uploadedAt : String
deriving DecidableEq, Repr

inductive TransactionSource
  | manual
  | imported
deriving DecidableEq, Repr

inductive TransactionType
  | income
  | expense
deriving DecidableEq, Repr

structure Transaction where
  id : String
  userId : String
  type : TransactionType
  category : String
  amount : Rat
  date : String
  notes : Option String
  receiptId : Option String
  source : TransactionSource
  createdAt : String
deriving DecidableEq, Repr

structure Budget where
  id : String
  userId : String
  category : String
  limit : Rat
  createdAt : String
  rollover : Option Bool
  alertThreshold : Option Rat
deriving DecidableEq, Repr

inductive AnalyticsPeriod
  | weekly
  | monthly
deriving DecidableEq, Repr

structure AnalyticsLog where
  id : String
  userId : String
  period : AnalyticsPeriod
  sentAt : String
deriving DecidableEq, Repr

structure AppState where
  users : List User
  receipts : List Receipt
  transactions : List Transaction
  budgets : List Budget
  analyticsLog : List AnalyticsLog
  currentUserId : Option String
deriving DecidableEq, Repr

/-- The `DEFAULT_CATEGORIES` constant of the store. -/
def DEFAULT_CATEGORIES : List String :=
  ["Salary", "Rent", "Food", "Transportation", "Entertainment", "Utilities",
   "Healthcare", "Travel", "Savings"]

/-- The slice `DEFAULT_CATEGORIES.slice(0, 6)` — the free-tier starter set. -/
def firstSixDefaults : List String := DEFAULT_CATEGORIES.take 6

/-- Helper `selectUserByEmail`: first user whose normalised email matches the
normalised argument. -/
def selectUserByEmail (users : List User) (email : String) : Option User :=
  users.find? (fun user => normalizeEmail user.email == normalizeEmail email)

/-- The state the store starts from when no snapshot exists. -/
def initialState : AppState :=
  { users := [], receipts := [], transactions := [], budgets := [],
    analyticsLog := [], currentUserId := none }

/-! ## Store operations -/

/-- The `newUser` record built by `signUp` (name defaults to
`'New Member'` when blank after trimming). -/
def freshUser (email name passwordHash freshId now : String) : User :=
  { id := freshId
    email := normalizeEmail email
    name := if jsTrim name = "" then "New Member" else jsTrim name
    passwordHash := passwordHash
    createdAt := now
    subscription := { tier := .free, renewalDate := none, status := .active }
    settings := { currency := "USD", notifications := true, darkMode := false,
                  haptics := true }
    categories := DEFAULT_CATEGORIES.take 6 }

/-- Operation `signUp`: rejects a duplicate (normalised) email, otherwise appends a
new free-tier user seeded with the first six default categories and makes
them current.  `freshId` stands for `nanoid()`, `now` for
`new Date().toISOString()`. -/
def signUp (s : AppState) (email name passwordHash freshId now : String) :
    Except String String × AppState :=
  match selectUserByEmail s.users email with
  | some _ => (.error "An account already exists for this email address.", s)
  | none =>
    (.ok freshId, { s with users := s.users ++ [freshUser email name passwordHash freshId now],
                           currentUserId := some freshId })

/-- Operation `signIn`: fails unless a user matches the normalised email and the
stored hash equals the supplied hash; success sets `currentUserId`. -/
def signIn (s : AppState) (email passwordHash : String) :
    Except String User × AppState :=
  match selectUserByEmail s.users email with
  | none => (.error "Invalid email or password.", s)
  | some user =>
    if user.passwordHash = passwordHash then
      (.ok user, { s with currentUserId := some user.id })
    else
      (.error "Invalid email or password.", s)

/-- Operation `signOut`: clears the current user. -/
def signOut (s : AppState) : AppState := { s with currentUserId := none }

/-- Operation `resetPassword`: replaces the matched user's password hash. -/
def resetPassword (s : AppState) (email newPasswordHash : String) :
    Except String Unit × AppState :=
  match selectUserByEmail s.users email with
  | none => (.error "No account found for this email.", s)
  | some user =>
    (.ok (), { s with users := s.users.map (fun u =>
      if u.id == user.id then { u with passwordHash := newPasswordHash } else u) })

/-- Operation `addReceipt`: appends a receipt. -/
def addReceipt (s : AppState) (fileName dataUrl freshId now : String) :
    Receipt × AppState :=
  let receipt : Receipt :=
    { id := freshId, fileName := fileName, dataUrl := dataUrl, uploadedAt := now }
  (receipt, { s with receipts := s.receipts ++ [receipt] })

/-- Operation `removeReceipt`: filters the receipt out by id. -/
def removeReceipt (s : AppState) (id : String) : AppState :=
  { s with receipts := s.receipts.filter (fun receipt => receipt.id != id) }

/-- Operation `addTransaction`: prepends a new transaction; `source` defaults to
`manual` when omitted. -/
def addTransaction (s : AppState) (userId : String) (type : TransactionType)
    (category : String) (amount : Rat) (date : String) (notes : Option String)
    (receiptId : Option String) (source : Option TransactionSource)
    (freshId now : String) : Transaction × AppState :=
  let transaction : Transaction :=
    { id := freshId, userId := userId, type := type, category := category,
      amount := amount, date := date, notes := notes, receiptId := receiptId,
      source := source.getD .manual, createdAt := now }
  (transaction, { s with transactions := transaction :: s.transactions })

/-- A `Partial<Omit<Transaction, 'id' | 'userId'>>` update object: the
outer `Option` records whether the key is present. -/
structure TransactionUpdate where
  type : Option TransactionType := none
  category : Option String := none
  amount : Option Rat := none
  date : Option String := none
  notes : Option (Option String) := none
  receiptId : Option (Option String) := none
  source : Option TransactionSource := none
  createdAt : Option String := none
deriving DecidableEq, Repr

/-- The spread `{ ...tx, ...updates }`. -/
def applyTransactionUpdate (tx : Transaction) (u : TransactionUpdate) : Transaction :=
  { tx with
    type := u.type.getD tx.type
    category := u.category.getD tx.category
    amount := u.amount.getD tx.amount
    date := u.date.getD tx.date
    notes := u.notes.getD tx.notes
    receiptId := u.receiptId.getD tx.receiptId
    source := u.source.getD tx.source
    createdAt := u.createdAt.getD tx.createdAt }

/-- Operation `updateTransaction`: merges the update into the matching record;
silent no-op when the id is not found. -/
def updateTransaction (s : AppState) (id : String) (u : TransactionUpdate) : AppState :=
  { s with transactions := s.transactions.map (fun tx =>
      if tx.id == id then applyTransactionUpdate tx u else tx) }

/-- Operation `removeTransaction`: looks the transaction up; when its `receiptId`
is truthy (present and non-empty) the referenced receipt is filtered out
first; then the transaction itself is filtered out. -/
def removeTransaction (s : AppState) (id : String) : AppState :=
  let transaction := s.transactions.find? (fun tx => tx.id == id)
  let s1 : AppState :=
    match transaction with
    | some tx =>
      match tx.receiptId with
      | some rid =>
        if rid ≠ "" then
          { s with receipts := s.receipts.filter (fun r => r.id != rid) }
        else s
      | none => s
    | none => s
  { s1 with transactions := s1.transactions.filter (fun tx => tx.id != id) }

/-- Operation `upsertBudget`: rejects a non-positive limit; a truthy `id` (present
and non-empty) selects the update path, which requires the record to
exist and preserves `rollover` / `alertThreshold` when the call omits
them; otherwise a fresh record is prepended. -/
def upsertBudget (s : AppState) (id : Option String) (userId category : String)
    (limit : Rat) (rollover : Option Bool) (alertThreshold : Option Rat)
    (freshId now : String) : Except String Budget × AppState :=
  if limit ≤ 0 then
    (.error "Budget limit must be greater than zero.", s)
  else
    let newBudget : Budget :=
      { id := freshId, userId := userId, category := category, limit := limit,
        createdAt := now, rollover := rollover, alertThreshold := alertThreshold }
    let insertNew : Except String Budget × AppState :=
      (.ok newBudget, { s with budgets := newBudget :: s.budgets })
    match id with
    | some i =>
      if i = "" then insertNew
      else
        match s.budgets.find? (fun budget => budget.id == i) with
        | none => (.error "Budget not found.", s)
        | some existing =>
          let updated : Budget :=
            { existing with
              category := category
              limit := limit
              rollover := match rollover with
                | some b => some b
                | none => existing.rollover
              alertThreshold := match alertThreshold with
                | some a => some a
                | none => existing.alertThreshold }
          (.ok updated, { s with budgets := s.budgets.map (fun budget =>
              if budget.id == i then updated else budget) })
    | none => insertNew

/-- Operation `removeBudget`: filters the budget out by id. -/
def removeBudget (s : AppState) (id : String) : AppState :=
  { s with budgets := s.budgets.filter (fun budget => budget.id != id) }

/-- Operation `upgradeToPremium`: sets the subscription to premium/active with the
supplied renewal date and concatenates the missing default categories.
`renewal` stands for `addMonths(new Date(), 1).toISOString()`. -/
def upgradeToPremium (s : AppState) (userId renewal : String) : AppState :=
  { s with users := s.users.map (fun user =>
      if user.id == userId then
        { user with
          subscription := { tier := .premium, renewalDate := some renewal,
                            status := .active }
          categories := user.categories ++ DEFAULT_CATEGORIES.filter
            (fun category => !(user.categories.contains category)) }
      else user) }

/-- Operation `downgradeToFree`: resets the subscription and categories and drops
the user's budgets and transactions whose category is outside the first
six defaults. -/
def downgradeToFree (s : AppState) (userId : String) : AppState :=
  { s with
    users := s.users.map (fun user =>
      if user.id == userId then
        { user with
          subscription := { tier := .free, renewalDate := none, status := .active }
          categories := DEFAULT_CATEGORIES.take 6 }
      else user)
    budgets := s.budgets.filter (fun budget =>
      budget.userId != userId || (DEFAULT_CATEGORIES.take 6).contains budget.category)
    transactions := s.transactions.filter (fun tx =>
      tx.userId != userId || (DEFAULT_CATEGORIES.take 6).contains tx.category) }

/-- Operation `addCustomCategory`: rejects an empty trimmed name, otherwise appends
the trimmed name to the matching user's categories when not already
present.  No tier check. -/
def addCustomCategory (s : AppState) (userId category : String) :
    Except String Unit × AppState :=
  let trimmed := jsTrim category
  if trimmed = "" then
    (.error "Category name cannot be empty.", s)
  else
    (.ok (), { s with users := s.users.map (fun user =>
        if user.id == userId && !(user.categories.contains trimmed) then
          { user with categories := user.categories ++ [trimmed] }
        else user) })

/-- Operation `importTransactions`: fails for an unknown user, otherwise prepends
the batch produced by the randomised generator
(`generateImportedTransactions`), which is passed in as the
nondeterministic parameter `generated`. -/
def importTransactions (s : AppState) (userId : String)
    (generated : List Transaction) : Except String (List Transaction) × AppState :=
  match s.users.find? (fun u => u.id == userId) with
  | none => (.error "User not found.", s)
  | some _ => (.ok generated, { s with transactions := generated ++ s.transactions })

/-- A `Partial<UserSettings>` update object. -/
structure SettingsUpdate where
  currency : Option String := none
  notifications : Option Bool := none
  darkMode : Option Bool := none
  haptics : Option Bool := none
deriving DecidableEq, Repr

/-- The spread `{ ...user.settings, ...settings }`. -/
def applySettingsUpdate (st : UserSettings) (u : SettingsUpdate) : UserSettings :=
  { currency := u.currency.getD st.currency
    notifications := u.notifications.getD st.notifications
    darkMode := u.darkMode.getD st.darkMode
    haptics := u.haptics.getD st.haptics }

/-- Operation `updateSettings`: shallow-merges into the matching user's settings. -/
def updateSettings (s : AppState) (userId : String) (u : SettingsUpdate) : AppState :=
  { s with users := s.users.map (fun user =>
      if user.id == userId then
        { user with settings := applySettingsUpdate user.settings u }
      else user) }

/-- Operation `sendAnalyticsEmail`: prepends an analytics log entry. -/
def sendAnalyticsEmail (s : AppState) (userId : String) (period : AnalyticsPeriod)
    (freshId now : String) : AnalyticsLog × AppState :=
  let log : AnalyticsLog := { id := freshId, userId := userId, period := period,
                              sentAt := now }
  (log, { s with analyticsLog := log :: s.analyticsLog })

/-! ## Step relation over all store operations -/

/-- One store mutation together with its nondeterministic inputs
(`nanoid()` results, timestamps, random import batches). -/
inductive StoreOp
  | signUp (email name passwordHash freshId now : String)
  | signIn (email passwordHash : String)
  | signOut
  | resetPassword (email newPasswordHash : String)
  | addReceipt (fileName dataUrl freshId now : String)
  | removeReceipt (id : String)
  | addTransaction (userId : String) (type : TransactionType) (category : String)
      (amount : Rat) (date : String) (notes : Option String)
      (receiptId : Option String) (source : Option TransactionSource)
      (freshId now : String)
  | updateTransaction (id : String) (u : TransactionUpdate)
  | removeTransaction (id : String)
  | upsertBudget (id : Option String) (userId category : String) (limit : Rat)
      (rollover : Option Bool) (alertThreshold : Option Rat) (freshId now : String)
  | removeBudget (id : String)
  | upgradeToPremium (userId renewal : String)
  | downgradeToFree (userId : String)
  | addCustomCategory (userId category : String)
  | importTransactions (userId : String) (generated : List Transaction)
  | updateSettings (userId : String) (u : SettingsUpdate)
  | sendAnalyticsEmail (userId : String) (period : AnalyticsPeriod) (freshId now : String)

/-- The state after running one operation (a throwing call leaves the
state unchanged, as in the source, where validation precedes `set`). -/
def applyOp (op : StoreOp) (s : AppState) : AppState :=
  match op with
  | .signUp email name passwordHash freshId now =>
      (signUp s email name passwordHash freshId now).2
  | .signIn email passwordHash => (signIn s email passwordHash).2
  | .signOut => signOut s
  | .resetPassword email newPasswordHash => (resetPassword s email newPasswordHash).2
  | .addReceipt fileName dataUrl freshId now => (addReceipt s fileName dataUrl freshId now).2
  | .removeReceipt id => removeReceipt s id
  | .addTransaction userId type category amount date notes receiptId source freshId now =>
      (addTransaction s userId type category amount date notes receiptId source freshId now).2
  | .updateTransaction id u => updateTransaction s id u
  | .removeTransaction id => removeTransaction s id
  | .upsertBudget id userId category limit rollover alertThreshold freshId now =>
      (upsertBudget s id userId category limit rollover alertThreshold freshId now).2
  | .removeBudget id => removeBudget s id
  | .upgradeToPremium userId renewal => upgradeToPremium s userId renewal
  | .downgradeToFree userId => downgradeToFree s userId
  | .addCustomCategory userId category => (addCustomCategory s userId category).2
  | .importTransactions userId generated => (importTransactions s userId generated).2
  | .updateSettings userId u => updateSettings s userId u
  | .sendAnalyticsEmail userId period freshId now =>
      (sendAnalyticsEmail s userId period freshId now).2

/-- States the store can reach from its empty initial state. -/
inductive Reachable : AppState → Prop
  | init : Reachable initialState
  | step (s : AppState) (op : StoreOp) : Reachable s → Reachable (applyOp op s)

/-! ## Facts about the string primitives -/

theorem toNat_ofNat_valid (n : Nat) (h : n < 0xd800) : (Char.ofNat n).toNat = n := by
  unfold Char.ofNat
  rw [dif_pos (Or.inl h)]
  rfl

theorem jsWhitespace_lowerChar (c : Char) : jsWhitespace (lowerChar c) = jsWhitespace c := by
  unfold lowerChar
  split
  · next h =>
    have h1 : (Char.ofNat (c.toNat + 32)).toNat = c.toNat + 32 := by
      apply toNat_ofNat_valid; omega
    have h2 : jsWhitespace (Char.ofNat (c.toNat + 32)) = false := by
      simp [jsWhitespace, h1]; omega
    have h3 : jsWhitespace c = false := by
      simp [jsWhitespace]; omega
    rw [h2, h3]
  · rfl

theorem lowerChar_idem (c : Char) : lowerChar (lowerChar c) = lowerChar c := by
  unfold lowerChar
  split
  · next h =>
    have h1 : (Char.ofNat (c.toNat + 32)).toNat = c.toNat + 32 := by
      apply toNat_ofNat_valid; omega
    rw [if_neg]
    rw [h1]; omega
  · rfl

theorem head?_dropWhile_false {α : Type} (p : α → Bool) (l : List α) (c : α)
    (hc : (l.dropWhile p).head? = some c) : p c = false := by
  have h := List.head?_dropWhile_not p l
  rw [hc] at h
  exact h

theorem dropWhile_eq_self_of_head? {α : Type} {p : α → Bool} {l : List α}
    (h : ∀ c, l.head? = some c → p c = false) : l.dropWhile p = l := by
  cases l with
  | nil => rfl
  | cons a t =>
    rw [List.dropWhile_cons, if_neg]
    simp [h a rfl]

theorem getLast?_of_suffix {α : Type} {l m : List α} (h : l <:+ m) (hne : l ≠ []) :
    m.getLast? = l.getLast? := by
  obtain ⟨pre, rfl⟩ := h
  rw [List.getLast?_append]
  obtain ⟨b, hb⟩ := Option.isSome_iff_exists.mp (List.getLast?_isSome.mpr hne)
  rw [hb]
  rfl

theorem trimChars_idem (l : List Char) : trimChars (trimChars l) = trimChars l := by
  have hA : ∀ c, (l.dropWhile jsWhitespace).head? = some c → jsWhitespace c = false :=
    head?_dropWhile_false jsWhitespace l
  set A := l.dropWhile jsWhitespace with hAdef
  set B := A.reverse.dropWhile jsWhitespace with hBdef
  have hBA : B <:+ A.reverse := List.dropWhile_suffix _
  have h1 : B.reverse.dropWhile jsWhitespace = B.reverse := by
    apply dropWhile_eq_self_of_head?
    intro c hc
    rw [List.head?_reverse] at hc
    have hBne : B ≠ [] := by
      intro hB
      rw [hB] at hc
      simp at hc
    have h2 := getLast?_of_suffix hBA hBne
    rw [List.getLast?_reverse] at h2
    exact hA c (h2.trans hc)
  show ((B.reverse.dropWhile jsWhitespace).reverse.dropWhile jsWhitespace).reverse = B.reverse
  rw [h1, List.reverse_reverse, hBdef, List.dropWhile_idempotent]

theorem dropWhile_ws_map_lower (l : List Char) :
    (l.map lowerChar).dropWhile jsWhitespace = (l.dropWhile jsWhitespace).map lowerChar := by
  have hp : (jsWhitespace ∘ lowerChar) = jsWhitespace := funext jsWhitespace_lowerChar
  rw [List.dropWhile_map, hp]

theorem trimChars_map_lower (l : List Char) :
    trimChars (l.map lowerChar) = (trimChars l).map lowerChar := by
  unfold trimChars
  rw [dropWhile_ws_map_lower, ← List.map_reverse, dropWhile_ws_map_lower, ← List.map_reverse]

theorem map_lower_idem (l : List Char) :
    (l.map lowerChar).map lowerChar = l.map lowerChar := by
  rw [List.map_map]
  exact List.map_congr_left (fun a _ => lowerChar_idem a)

/-- Normalisation `email.trim().toLowerCase()` is idempotent: normalising an already
normalised email changes nothing. -/
theorem normalizeEmail_idem (s : String) :
    normalizeEmail (normalizeEmail s) = normalizeEmail s := by
  show (⟨(trimChars ((trimChars s.data).map lowerChar)).map lowerChar⟩ : String)
      = ⟨(trimChars s.data).map lowerChar⟩
  rw [trimChars_map_lower, trimChars_idem, map_lower_idem]

/-! ## How each operation transforms the user list -/

theorem signIn_users (s : AppState) (e p : String) : (signIn s e p).2.users = s.users := by
  unfold signIn
  split
  · rfl
  · split <;> rfl

theorem upsertBudget_users (s : AppState) (id : Option String) (userId category : String)
    (limit : Rat) (rollover : Option Bool) (alertThreshold : Option Rat)
    (freshId now : String) :
    (upsertBudget s id userId category limit rollover alertThreshold freshId now).2.users
      = s.users := by
  unfold upsertBudget
  split
  · rfl
  · split
    · split
      · rfl
      · split
        · rfl
        · rfl
    · rfl

theorem removeTransaction_users (s : AppState) (id : String) :
    (removeTransaction s id).users = s.users := by
  unfold removeTransaction
  dsimp only
  split
  · split
    · split <;> rfl
    · rfl
  · rfl

theorem importTransactions_users (s : AppState) (userId : String)
    (generated : List Transaction) :
    (importTransactions s userId generated).2.users = s.users := by
  unfold importTransactions
  split <;> rfl

theorem resetPassword_users (s : AppState) (e p : String) :
    ∀ u ∈ (resetPassword s e p).2.users,
      ∃ v ∈ s.users, u = v ∨ u = { v with passwordHash := p } := by
  intro u hu
  unfold resetPassword at hu
  split at hu
  · exact ⟨u, hu, Or.inl rfl⟩
  · next w hw =>
    rw [List.mem_map] at hu
    obtain ⟨v, hv, rfl⟩ := hu
    by_cases h : (v.id == w.id) = true
    · exact ⟨v, hv, Or.inr (by rw [if_pos h])⟩
    · exact ⟨v, hv, Or.inl (by rw [if_neg h])⟩

/-- Every store operation maps each user record either to itself or
through one of the five user transformations of the source; hence any
per-user property closed under those transformations is preserved by
every operation. -/
theorem step_userProp (P : User → Prop)
    (h_new : ∀ e n p f t, P (freshUser e n p f t))
    (h_hash : ∀ u p, P u → P { u with passwordHash := p })
    (h_upgrade : ∀ u r, P u →
      P { u with
            subscription := { tier := .premium, renewalDate := some r, status := .active }
            categories := u.categories ++ DEFAULT_CATEGORIES.filter
              (fun category => !(u.categories.contains category)) })
    (h_downgrade : ∀ u, P u →
      P { u with
            subscription := { tier := .free, renewalDate := none, status := .active }
            categories := DEFAULT_CATEGORIES.take 6 })
    (h_addCat : ∀ u (c : String), (u.categories.contains c) = false → P u →
      P { u with categories := u.categories ++ [c] })
    (h_settings : ∀ u st, P u → P { u with settings := st })
    (op : StoreOp) (s : AppState) (hP : ∀ u ∈ s.users, P u) :
    ∀ u ∈ (applyOp op s).users, P u := by
  cases op with
  | signUp e n p f t =>
    intro u hu
    simp only [applyOp] at hu
    unfold signUp at hu
    split at hu
    · exact hP u hu
    · rcases List.mem_append.mp hu with h | h
      · exact hP u h
      · rw [List.mem_singleton] at h
        subst h
        exact h_new e n p f t
  | signIn e p =>
    intro u hu
    simp only [applyOp] at hu
    rw [signIn_users] at hu
    exact hP u hu
  | signOut => exact fun u hu => hP u hu
  | resetPassword e p =>
    intro u hu
    obtain ⟨v, hv, h | h⟩ := resetPassword_users s e p u hu
    · exact h ▸ hP v hv
    · exact h ▸ h_hash v p (hP v hv)
  | addReceipt fn du f t => exact fun u hu => hP u hu
  | removeReceipt i => exact fun u hu => hP u hu
  | addTransaction uid ty cat am dt no rid src f t => exact fun u hu => hP u hu
  | updateTransaction i upd => exact fun u hu => hP u hu
  | removeTransaction i =>
    intro u hu
    simp only [applyOp] at hu
    rw [removeTransaction_users] at hu
    exact hP u hu
  | upsertBudget i uid cat lim ro al f t =>
    intro u hu
    simp only [applyOp] at hu
    rw [upsertBudget_users] at hu
    exact hP u hu
  | removeBudget i => exact fun u hu => hP u hu
  | upgradeToPremium uid r =>
    intro u hu
    simp only [applyOp] at hu
    unfold upgradeToPremium at hu
    rw [List.mem_map] at hu
    obtain ⟨v, hv, rfl⟩ := hu
    by_cases h : (v.id == uid) = true
    · rw [if_pos h]
      exact h_upgrade v r (hP v hv)
    · rw [if_neg h]
      exact hP v hv
  | downgradeToFree uid =>
    intro u hu
    simp only [applyOp] at hu
    unfold downgradeToFree at hu
    rw [List.mem_map] at hu
    obtain ⟨v, hv, rfl⟩ := hu
    by_cases h : (v.id == uid) = true
    · rw [if_pos h]
      exact h_downgrade v (hP v hv)
    · rw [if_neg h]
      exact hP v hv
  | addCustomCategory uid cat =>
    intro u hu
    simp only [applyOp] at hu
    unfold addCustomCategory at hu
    dsimp only at hu
    split at hu
    · exact hP u hu
    · rw [List.mem_map] at hu
      obtain ⟨v, hv, rfl⟩ := hu
      by_cases h : (v.id == uid && !(v.categories.contains (jsTrim cat))) = true
      · rw [if_pos h]
        rw [Bool.and_eq_true, Bool.not_eq_true'] at h
        exact h_addCat v (jsTrim cat) h.2 (hP v hv)
      · rw [if_neg h]
        exact hP v hv
  | importTransactions uid gen =>
    intro u hu
    simp only [applyOp] at hu
    rw [importTransactions_users] at hu
    exact hP u hu
  | updateSettings uid upd =>
    intro u hu
    simp only [applyOp] at hu
    unfold updateSettings at hu
    rw [List.mem_map] at hu
    obtain ⟨v, hv, rfl⟩ := hu
    by_cases h : (v.id == uid) = true
    · rw [if_pos h]
      exact h_settings v _ (hP v hv)
    · rw [if_neg h]
      exact hP v hv
  | sendAnalyticsEmail uid per f t => exact fun u hu => hP u hu

/-! ## Invariants of reachable states -/

/-- The free-tier category invariant of one user record: while the tier
is `free`, the categories contain all of the first six defaults. -/
def FreeTierUserOK (u : User) : Prop :=
  u.subscription.tier = .free → ∀ c ∈ DEFAULT_CATEGORIES.take 6, c ∈ u.categories

theorem freeTier_step (op : StoreOp) (s : AppState)
    (hP : ∀ u ∈ s.users, FreeTierUserOK u) :
    ∀ u ∈ (applyOp op s).users, FreeTierUserOK u := by
  refine step_userProp FreeTierUserOK ?_ ?_ ?_ ?_ ?_ ?_ op s hP
  · intro e n p f t _ c hc
    exact hc
  · intro u p h
    exact h
  · intro u r _ htier
    exact absurd htier (by simp)
  · intro u _ _ c hc
    exact hc
  · intro u c _ h htier d hd
    exact List.mem_append_left _ (h htier d hd)
  · intro u st h
    exact h

theorem nodupCats_step (op : StoreOp) (s : AppState)
    (hP : ∀ u ∈ s.users, u.categories.Nodup) :
    ∀ u ∈ (applyOp op s).users, u.categories.Nodup := by
  refine step_userProp (fun u => u.categories.Nodup) ?_ ?_ ?_ ?_ ?_ ?_ op s hP
  · intro e n p f t
    show (DEFAULT_CATEGORIES.take 6).Nodup
    decide
  · exact fun u p h => h
  · intro u r h
    show (u.categories ++ DEFAULT_CATEGORIES.filter
      (fun category => !(u.categories.contains category))).Nodup
    refine List.Nodup.append h (List.Nodup.filter _ (by decide)) ?_
    intro a ha hb
    rw [List.mem_filter] at hb
    have hb2 := hb.2
    rw [Bool.not_eq_true'] at hb2
    simp [List.contains] at hb2
    exact hb2 ha
  · intro u _
    show (DEFAULT_CATEGORIES.take 6).Nodup
    decide
  · intro u c hc h
    show (u.categories ++ [c]).Nodup
    refine List.Nodup.append h (List.nodup_singleton c) ?_
    intro a ha hb
    rw [List.mem_singleton] at hb
    subst hb
    simp [List.contains] at hc
    exact hc ha
  · exact fun u st h => h

/-- In every reachable state, every free-tier user retains the first six
default categories. -/
theorem reachable_freeTier {s : AppState} (h : Reachable s) :
    ∀ u ∈ s.users, FreeTierUserOK u := by
  induction h with
  | init => intro u hu; cases hu
  | step s' op _ ih => exact freeTier_step op s' ih

/-- In every reachable state, no user's category list contains a
duplicate. -/
theorem reachable_nodupCats {s : AppState} (h : Reachable s) :
    ∀ u ∈ s.users, u.categories.Nodup := by
  induction h with
  | init => intro u hu; cases hu
  | step s' op _ ih => exact nodupCats_step op s' ih

theorem downgradeToFree_categories (s : AppState) (userId : String) :
    ∀ u ∈ (downgradeToFree s userId).users, u.id = userId →
      u.categories = DEFAULT_CATEGORIES.take 6 := by
  intro u hu hid
  unfold downgradeToFree at hu
  rw [List.mem_map] at hu
  obtain ⟨v, hv, rfl⟩ := hu
  by_cases h : (v.id == userId) = true
  · rw [if_pos h]
  · rw [if_neg h] at hid ⊢
    exact absurd (beq_iff_eq.mpr hid) h

/-! ## Concrete demonstration state (one signed-up user) -/

def demoOp : StoreOp := .signUp "ann@x.com" "Ann" "hash1" "U1" "t0"

def demoState : AppState := applyOp demoOp initialState

def demoUser : User := freshUser "ann@x.com" "Ann" "hash1" "U1" "t0"

theorem demo_reachable : Reachable demoState :=
  Reachable.step initialState demoOp Reachable.init

theorem demoUser_mem : demoUser ∈ demoState.users := List.Mem.head _

theorem demoUser_id : demoUser.id = "U1" := rfl

/-! ## Claims -/

/-- Claim C1: in every reachable store state, every user whose
subscription tier is `free` has all of the first six entries of the
default category list among their categories; every store operation
preserves this per-user invariant; and `downgradeToFree` sets the target
user's categories to exactly the first six defaults. -/
theorem claim_C1 :
    (∀ s, Reachable s → ∀ u ∈ s.users, u.subscription.tier = .free →
        ∀ c ∈ DEFAULT_CATEGORIES.take 6, c ∈ u.categories)
    ∧ (∀ op s, (∀ u ∈ s.users, FreeTierUserOK u) →
        ∀ u ∈ (applyOp op s).users, FreeTierUserOK u)
    ∧ (∀ s userId, ∀ u ∈ (downgradeToFree s userId).users, u.id = userId →
        u.categories = DEFAULT_CATEGORIES.take 6) :=
  ⟨fun _ hs => reachable_freeTier hs, freeTier_step, downgradeToFree_categories⟩

/-- Witness for C1 at a concrete reachable state: the signed-up demo
user is free-tier and holds the first default category. -/
theorem claim_C1_witness : "Salary" ∈ demoUser.categories :=
  claim_C1.1 demoState demo_reachable demoUser demoUser_mem rfl "Salary" (by decide)

/-- Claim C8: starting from any reachable state, `upgradeToPremium`
replaces the target user's categories with the union of their current
categories and the full default list (adds only the missing defaults,
preserves existing custom categories), and both one and two consecutive
upgrades leave every category list free of duplicates. -/
theorem claim_C8 (s : AppState) (hs : Reachable s) (userId renewal renewal2 : String) :
    (∀ u ∈ s.users, u.id = userId →
      ∃ u' ∈ (upgradeToPremium s userId renewal).users,
        ∀ c, c ∈ u'.categories ↔ (c ∈ u.categories ∨ c ∈ DEFAULT_CATEGORIES))
    ∧ (∀ u' ∈ (upgradeToPremium s userId renewal).users, u'.categories.Nodup)
    ∧ (∀ u' ∈ (upgradeToPremium (upgradeToPremium s userId renewal) userId renewal2).users,
        u'.categories.Nodup) := by
  refine ⟨?_, ?_, ?_⟩
  · intro u hu hid
    have hbeq : (u.id == userId) = true := beq_iff_eq.mpr hid
    refine ⟨_, List.mem_map_of_mem _ hu, fun c => ?_⟩
    dsimp only
    rw [if_pos hbeq]
    constructor
    · intro hc
      rcases List.mem_append.mp hc with h | h
      · exact Or.inl h
      · exact Or.inr (List.mem_filter.mp h).1
    · intro hc
      rcases hc with h | h
      · exact List.mem_append_left _ h
      · by_cases hmem : c ∈ u.categories
        · exact List.mem_append_left _ hmem
        · refine List.mem_append_right _ (List.mem_filter.mpr ⟨h, ?_⟩)
          rw [Bool.not_eq_true']
          simp [List.contains]
          exact hmem
  · exact reachable_nodupCats
      (Reachable.step s (StoreOp.upgradeToPremium userId renewal) hs)
  · exact reachable_nodupCats
      (Reachable.step _ (StoreOp.upgradeToPremium userId renewal2)
        (Reachable.step s (StoreOp.upgradeToPremium userId renewal) hs))

/-- Witness for C8 at the concrete reachable demo state. -/
theorem claim_C8_witness :
    demoUser ∈ demoState.users ∧
    ∃ u' ∈ (upgradeToPremium demoState "U1" "r1").users,
      ∀ c, c ∈ u'.categories ↔ (c ∈ demoUser.categories ∨ c ∈ DEFAULT_CATEGORIES) :=
  ⟨demoUser_mem,
   (claim_C8 demoState demo_reachable "U1" "r1" "r2").1 demoUser demoUser_mem demoUser_id⟩

theorem map_eq_self_of {α : Type} {l : List α} {f : α → α} (h : ∀ a ∈ l, f a = a) :
    l.map f = l :=
  (List.map_congr_left h).trans (List.map_id l)

/-- Claim C2: for an existing user id, `downgradeToFree` resets that
user's subscription to free/active with no renewal date and their
categories to exactly the first six defaults, leaves every other user
untouched, and keeps exactly those budgets and transactions that either
belong to another user or whose category is among the first six
defaults. -/
theorem claim_C2 (s : AppState) (userId : String) (u : User)
    (hu : u ∈ s.users) (hid : u.id = userId) :
    (∀ v ∈ (downgradeToFree s userId).users, v.id = userId →
        v.subscription = { tier := .free, renewalDate := none, status := .active } ∧
        v.categories = DEFAULT_CATEGORIES.take 6)
    ∧ (∀ v ∈ s.users, v.id ≠ userId → v ∈ (downgradeToFree s userId).users)
    ∧ (∀ b : Budget, b ∈ (downgradeToFree s userId).budgets ↔
        (b ∈ s.budgets ∧ (b.userId ≠ userId ∨ b.category ∈ DEFAULT_CATEGORIES.take 6)))
    ∧ (∀ tx : Transaction, tx ∈ (downgradeToFree s userId).transactions ↔
        (tx ∈ s.transactions ∧ (tx.userId ≠ userId ∨ tx.category ∈ DEFAULT_CATEGORIES.take 6))) := by
  refine ⟨?_, ?_, ?_, ?_⟩
  · intro v hv hvid
    unfold downgradeToFree at hv
    rw [List.mem_map] at hv
    obtain ⟨w, hw, rfl⟩ := hv
    by_cases h : (w.id == userId) = true
    · rw [if_pos h]
      exact ⟨rfl, rfl⟩
    · rw [if_neg h] at hvid ⊢
      exact absurd (beq_iff_eq.mpr hvid) h
  · intro v hv hne
    have hb : ¬((v.id == userId) = true) := fun h => hne (beq_iff_eq.mp h)
    refine List.mem_map.mpr ⟨v, hv, ?_⟩
    dsimp only
    rw [if_neg hb]
  · intro b
    show b ∈ s.budgets.filter _ ↔ _
    simp [List.mem_filter, bne_iff_ne, List.contains]
  · intro tx
    show tx ∈ s.transactions.filter _ ↔ _
    simp [List.mem_filter, bne_iff_ne, List.contains]

def demoDowngraded : User :=
  { demoUser with
    subscription := { tier := .free, renewalDate := none, status := .active }
    categories := DEFAULT_CATEGORIES.take 6 }

/-- Witness for C2 at the concrete demo state. -/
theorem claim_C2_witness :
    demoDowngraded ∈ (downgradeToFree demoState "U1").users ∧
    demoDowngraded.subscription = { tier := .free, renewalDate := none, status := .active } ∧
    demoDowngraded.categories = DEFAULT_CATEGORIES.take 6 := by
  have hmem : demoDowngraded ∈ (downgradeToFree demoState "U1").users := by decide
  exact ⟨hmem,
    (claim_C2 demoState "U1" demoUser demoUser_mem demoUser_id).1 demoDowngraded hmem
      (by decide)⟩

/-- Claim C4: `upsertBudget` with a non-positive limit throws the
validation error and returns the store state unchanged (no budget is
appended or modified). -/
theorem claim_C4 (s : AppState) (id : Option String) (userId category : String)
    (limit : Rat) (rollover : Option Bool) (alertThreshold : Option Rat)
    (freshId now : String) (h : limit ≤ 0) :
    upsertBudget s id userId category limit rollover alertThreshold freshId now
      = (.error "Budget limit must be greater than zero.", s) := by
  unfold upsertBudget
  rw [if_pos h]

/-- Witness for C4 at `limit = 0` on the initial state. -/
theorem claim_C4_witness :
    (0 : Rat) ≤ 0 ∧
    upsertBudget initialState none "U1" "Food" 0 none none "B1" "t1"
      = (.error "Budget limit must be greater than zero.", initialState) :=
  ⟨by decide, claim_C4 initialState none "U1" "Food" 0 none none "B1" "t1" (by decide)⟩

/-- Claim C5: when some stored user's email equals the normalised form
of the given email, `signUp` throws the conflict error — whatever the
supplied name and password hash — and returns the state unchanged. -/
theorem claim_C5 (s : AppState) (u : User) (email name passwordHash freshId now : String)
    (hu : u ∈ s.users) (he : u.email = normalizeEmail email) :
    signUp s email name passwordHash freshId now
      = (.error "An account already exists for this email address.", s) := by
  have hnorm : (normalizeEmail u.email == normalizeEmail email) = true := by
    rw [he, normalizeEmail_idem]
    exact beq_self_eq_true _
  have hsome : (selectUserByEmail s.users email).isSome := by
    unfold selectUserByEmail
    exact List.find?_isSome.mpr ⟨u, hu, hnorm⟩
  obtain ⟨w, hw⟩ := Option.isSome_iff_exists.mp hsome
  unfold signUp
  rw [hw]

/-- Witness for C5: a second sign-up against the demo user's email (in
different case, with extra whitespace, different name and hash) fails
with the conflict error. -/
theorem claim_C5_witness :
    demoUser ∈ demoState.users ∧
    demoUser.email = normalizeEmail " Ann@X.com " ∧
    signUp demoState " Ann@X.com " "Bob" "otherhash" "U2" "t2"
      = (.error "An account already exists for this email address.", demoState) :=
  ⟨demoUser_mem, by decide,
   claim_C5 demoState demoUser " Ann@X.com " "Bob" "otherhash" "U2" "t2" demoUser_mem
     (by decide)⟩

/-- Claim C6: `signIn` fails with the authentication error and leaves
the state (in particular `currentUserId`) unchanged when no user matches
the normalised email or the matched user's stored hash differs from the
supplied one; when the first match's hash equals the supplied hash it
returns that user and sets `currentUserId` to their id. -/
theorem claim_C6 (s : AppState) (email passwordHash : String) :
    (selectUserByEmail s.users email = none →
      signIn s email passwordHash = (.error "Invalid email or password.", s))
    ∧ (∀ u, selectUserByEmail s.users email = some u → u.passwordHash ≠ passwordHash →
      signIn s email passwordHash = (.error "Invalid email or password.", s))
    ∧ (∀ u, selectUserByEmail s.users email = some u → u.passwordHash = passwordHash →
      signIn s email passwordHash = (.ok u, { s with currentUserId := some u.id })) := by
  refine ⟨?_, ?_, ?_⟩
  · intro h
    unfold signIn
    rw [h]
  · intro u h hp
    unfold signIn
    rw [h]
    dsimp only
    rw [if_neg hp]
  · intro u h hp
    unfold signIn
    rw [h]
    dsimp only
    rw [if_pos hp]

/-- Witness for C6: signing in to the demo state with the right email
but a wrong password hash fails and leaves the state unchanged. -/
theorem claim_C6_witness :
    selectUserByEmail demoState.users "ann@x.com" = some demoUser ∧
    demoUser.passwordHash ≠ "wrong" ∧
    signIn demoState "ann@x.com" "wrong" = (.error "Invalid email or password.", demoState) :=
  ⟨by decide, by decide,
   (claim_C6 demoState "ann@x.com" "wrong").2.1 demoUser (by decide) (by decide)⟩

/-- Claim C9: `addCustomCategory` throws the validation error when the
trimmed name is empty and otherwise succeeds without any tier check:
the trimmed name is appended to the target user's list exactly when that
user exists and does not already have it; an existing entry or a missing
user makes the call a silent no-op. -/
theorem claim_C9 (s : AppState) (userId category : String) :
    (jsTrim category = "" →
      addCustomCategory s userId category = (.error "Category name cannot be empty.", s))
    ∧ (jsTrim category ≠ "" →
      (addCustomCategory s userId category).1 = .ok ()
      ∧ (∀ u ∈ s.users, u.id = userId → jsTrim category ∉ u.categories →
          { u with categories := u.categories ++ [jsTrim category] }
            ∈ (addCustomCategory s userId category).2.users)
      ∧ (∀ u ∈ s.users, u.id = userId → jsTrim category ∈ u.categories →
          u ∈ (addCustomCategory s userId category).2.users)
      ∧ (∀ u ∈ s.users, u.id ≠ userId → u ∈ (addCustomCategory s userId category).2.users)
      ∧ ((∀ u ∈ s.users, u.id ≠ userId) → (addCustomCategory s userId category).2 = s)) := by
  constructor
  · intro h
    unfold addCustomCategory
    dsimp only
    rw [if_pos h]
  · intro h
    unfold addCustomCategory
    dsimp only
    rw [if_neg h]
    refine ⟨rfl, ?_, ?_, ?_, ?_⟩
    · intro u hu hid hnot
      have h1 : (u.id == userId) = true := beq_iff_eq.mpr hid
      have h2 : (u.categories.contains (jsTrim category)) = false := by
        simp [List.contains]
        exact hnot
      refine List.mem_map.mpr ⟨u, hu, ?_⟩
      dsimp only
      rw [if_pos (by rw [h1, h2]; rfl)]
    · intro u hu hid hmem
      have h2 : (u.categories.contains (jsTrim category)) = true := by
        simp [List.contains]
        exact hmem
      refine List.mem_map.mpr ⟨u, hu, ?_⟩
      dsimp only
      rw [if_neg (by rw [h2]; simp)]
    · intro u hu hne
      have h1 : (u.id == userId) = false := by
        rw [beq_eq_false_iff_ne]
        exact hne
      refine List.mem_map.mpr ⟨u, hu, ?_⟩
      dsimp only
      rw [if_neg (by rw [h1]; simp)]
    · intro hall
      have : s.users.map (fun user =>
          if (user.id == userId && !(user.categories.contains (jsTrim category))) = true then
            { user with categories := user.categories ++ [jsTrim category] }
          else user) = s.users := by
        apply map_eq_self_of
        intro u hu
        have h1 : (u.id == userId) = false := by
          rw [beq_eq_false_iff_ne]
          exact hall u hu
        rw [if_neg (by rw [h1]; simp)]
      rw [this]

/-- Witness for C9: the free-tier demo user successfully adds the
custom category `"Pets"`. -/
theorem claim_C9_witness :
    jsTrim "Pets" ≠ "" ∧
    demoUser.subscription.tier = .free ∧
    (addCustomCategory demoState "U1" "Pets").1 = .ok () ∧
    { demoUser with categories := demoUser.categories ++ [jsTrim "Pets"] }
      ∈ (addCustomCategory demoState "U1" "Pets").2.users := by
  have hne : jsTrim "Pets" ≠ "" := by decide
  have h := (claim_C9 demoState "U1" "Pets").2 hne
  exact ⟨hne, rfl, h.1, h.2.1 demoUser demoUser_mem demoUser_id (by decide)⟩

/-- Claim C10: on the update path (truthy id matching an existing
budget), the updated record keeps the existing budget's `userId` and
`createdAt`: the `userId` argument of the call is ignored and cannot
re-assign the budget to another user. -/
theorem claim_C10 (s : AppState) (id : Option String) (userId category : String)
    (limit : Rat) (rollover : Option Bool) (alertThreshold : Option Rat)
    (freshId now : String) (i : String) (existing : Budget)
    (hid : id = some i) (hne : i ≠ "")
    (hfind : s.budgets.find? (fun budget => budget.id == i) = some existing)
    (hlim : 0 < limit) :
    ∃ updated,
      (upsertBudget s id userId category limit rollover alertThreshold freshId now).1
        = .ok updated
      ∧ updated.userId = existing.userId
      ∧ updated.createdAt = existing.createdAt
      ∧ updated ∈
          (upsertBudget s id userId category limit rollover alertThreshold freshId now).2.budgets := by
  subst hid
  unfold upsertBudget
  rw [if_neg (not_le.mpr hlim)]
  dsimp only
  rw [if_neg hne, hfind]
  dsimp only
  refine ⟨_, rfl, rfl, rfl, ?_⟩
  have hpred := List.find?_some hfind
  refine List.mem_map.mpr ⟨existing, List.mem_of_find?_eq_some hfind, ?_⟩
  rw [if_pos hpred]

def demoBudget : Budget :=
  { id := "B1", userId := "U1", category := "Food", limit := 500, createdAt := "t1",
    rollover := none, alertThreshold := none }

def demoBudgetState : AppState := { initialState with budgets := [demoBudget] }

/-- Witness for C10: updating budget `B1` while passing `userId = "U2"`
keeps the original owner `"U1"` and creation timestamp. -/
theorem claim_C10_witness :
    ("B1" : String) ≠ "" ∧
    demoBudgetState.budgets.find? (fun budget => budget.id == "B1") = some demoBudget ∧
    (0 : Rat) < 250 ∧
    ∃ updated,
      (upsertBudget demoBudgetState (some "B1") "U2" "Rent" 250 none none "B9" "t9").1
        = .ok updated
      ∧ updated.userId = demoBudget.userId
      ∧ updated.createdAt = demoBudget.createdAt
      ∧ updated ∈ (upsertBudget demoBudgetState (some "B1") "U2" "Rent" 250 none none
          "B9" "t9").2.budgets :=
  ⟨by decide, by decide, by decide,
   claim_C10 demoBudgetState (some "B1") "U2" "Rent" 250 none none "B9" "t9" "B1"
     demoBudget rfl (by decide) (by decide) (by decide)⟩

/-- Counterexample to C3 as stated: an empty-string `id` is supplied and
no budget carries it, yet the call does not fail with the not-found
error — it creates a fresh budget (JavaScript truthiness treats `""` as
absent). -/
theorem claim_C3_counterexample :
    initialState.budgets = []
    ∧ (upsertBudget initialState (some "") "U1" "Food" 100 none none "B1" "t1").1
        = .ok { id := "B1", userId := "U1", category := "Food", limit := 100,
                createdAt := "t1", rollover := none, alertThreshold := none }
    ∧ (upsertBudget initialState (some "") "U1" "Food" 100 none none "B1" "t1").2.budgets
        ≠ initialState.budgets :=
  ⟨rfl, rfl, by decide⟩

/-- Claim C3 (amended: a supplied id selects the update path only when
non-empty; an empty-string id behaves like an absent id and creates):
with a positive limit, a non-empty unmatched id fails with the not-found
error leaving the state unchanged; a non-empty matching id updates the
record in place, taking the supplied category and limit and keeping the
previous `rollover` / `alertThreshold` whenever the call omits them; an
absent (or empty-string) id prepends a newly created record. -/
theorem claim_C3 (s : AppState) (id : Option String) (userId category : String)
    (limit : Rat) (rollover : Option Bool) (alertThreshold : Option Rat)
    (freshId now : String) (hlim : 0 < limit) :
    (∀ i, id = some i → i ≠ "" →
        s.budgets.find? (fun budget => budget.id == i) = none →
        upsertBudget s id userId category limit rollover alertThreshold freshId now
          = (.error "Budget not found.", s))
    ∧ (∀ i existing, id = some i → i ≠ "" →
        s.budgets.find? (fun budget => budget.id == i) = some existing →
        ∃ updated,
          (upsertBudget s id userId category limit rollover alertThreshold freshId now).1
            = .ok updated
          ∧ updated.category = category
          ∧ updated.limit = limit
          ∧ (rollover = none → updated.rollover = existing.rollover)
          ∧ (∀ b, rollover = some b → updated.rollover = some b)
          ∧ (alertThreshold = none → updated.alertThreshold = existing.alertThreshold)
          ∧ (∀ x, alertThreshold = some x → updated.alertThreshold = some x)
          ∧ updated ∈ (upsertBudget s id userId category limit rollover alertThreshold
              freshId now).2.budgets
          ∧ (∀ b ∈ s.budgets, b.id ≠ i →
              b ∈ (upsertBudget s id userId category limit rollover alertThreshold
                freshId now).2.budgets))
    ∧ ((id = none ∨ id = some "") →
        upsertBudget s id userId category limit rollover alertThreshold freshId now
          = (.ok { id := freshId, userId := userId, category := category, limit := limit,
                   createdAt := now, rollover := rollover,
                   alertThreshold := alertThreshold },
             { s with budgets := { id := freshId, userId := userId,
                                    category := category, limit := limit,
                                    createdAt := now, rollover := rollover,
                                    alertThreshold := alertThreshold } :: s.budgets })) := by
  refine ⟨?_, ?_, ?_⟩
  · intro i hi hne hfind
    subst hi
    unfold upsertBudget
    rw [if_neg (not_le.mpr hlim)]
    dsimp only
    rw [if_neg hne, hfind]
  · intro i existing hi hne hfind
    subst hi
    unfold upsertBudget
    rw [if_neg (not_le.mpr hlim)]
    dsimp only
    rw [if_neg hne, hfind]
    dsimp only
    refine ⟨_, rfl, rfl, rfl, ?_, ?_, ?_, ?_, ?_, ?_⟩
    · intro h
      rw [h]
    · intro b h
      rw [h]
    · intro h
      rw [h]
    · intro x h
      rw [h]
    · exact List.mem_map.mpr ⟨existing, List.mem_of_find?_eq_some hfind,
        by rw [if_pos (List.find?_some hfind)]⟩
    · intro b hb hbne
      refine List.mem_map.mpr ⟨b, hb, ?_⟩
      rw [if_neg (fun h => hbne (beq_iff_eq.mp h))]
  · rintro (h | h) <;>
      (subst h
       unfold upsertBudget
       rw [if_neg (not_le.mpr hlim)]) <;>
      rfl

/-- Witness for the amended C3: a positive-limit call with the unmatched
non-empty id `"B7"` fails with the not-found error on the empty initial
state. -/
theorem claim_C3_witness :
    (0 : Rat) < 100 ∧ ("B7" : String) ≠ "" ∧
    initialState.budgets.find? (fun budget => budget.id == "B7") = none ∧
    upsertBudget initialState (some "B7") "U1" "Food" 100 none none "B1" "t1"
      = (.error "Budget not found.", initialState) :=
  ⟨by decide, by decide, rfl,
   (claim_C3 initialState (some "B7") "U1" "Food" 100 none none "B1" "t1"
     (by decide)).1 "B7" rfl (by decide) rfl⟩

def demoReceiptEmptyId : Receipt :=
  { id := "", fileName := "f.png", dataUrl := "data:", uploadedAt := "t1" }

def demoTxEmptyRef : Transaction :=
  { id := "T1", userId := "U1", type := .expense, category := "Food", amount := 5,
    date := "d1", notes := none, receiptId := some "", source := .manual,
    createdAt := "t1" }

def demoGlitchState : AppState :=
  { initialState with receipts := [demoReceiptEmptyId], transactions := [demoTxEmptyRef] }

/-- Counterexample to C7 as stated: a transaction whose `receiptId` is
set (to the empty string) is removed, but the receipt carrying exactly
that id survives — JavaScript truthiness skips the receipt deletion for
`""`. -/
theorem claim_C7_counterexample :
    demoGlitchState.transactions.find? (fun t => t.id == "T1") = some demoTxEmptyRef
    ∧ demoTxEmptyRef.receiptId = some ""
    ∧ demoReceiptEmptyId.id = ""
    ∧ demoReceiptEmptyId ∈ (removeTransaction demoGlitchState "T1").receipts
    ∧ (removeTransaction demoGlitchState "T1").transactions = [] := by
  decide

/-- Claim C7 (amended: the receipt is deleted only when the referenced
`receiptId` is a non-empty string; an empty-string reference behaves
like no reference): removing a found transaction with a truthy
`receiptId` deletes the transaction and that receipt; with no
`receiptId` only the transaction goes and receipts are untouched; an
unknown transaction id is a complete no-op. -/
theorem claim_C7 (s : AppState) (tid : String) :
    (∀ tx, s.transactions.find? (fun t => t.id == tid) = some tx →
      (∀ rid, tx.receiptId = some rid → rid ≠ "" →
          (∀ t, t ∈ (removeTransaction s tid).transactions ↔
              (t ∈ s.transactions ∧ t.id ≠ tid))
          ∧ (∀ r, r ∈ (removeTransaction s tid).receipts ↔
              (r ∈ s.receipts ∧ r.id ≠ rid)))
      ∧ (tx.receiptId = none →
          (∀ t, t ∈ (removeTransaction s tid).transactions ↔
              (t ∈ s.transactions ∧ t.id ≠ tid))
          ∧ (removeTransaction s tid).receipts = s.receipts)
      ∧ (tx.receiptId = some "" →
          (∀ t, t ∈ (removeTransaction s tid).transactions ↔
              (t ∈ s.transactions ∧ t.id ≠ tid))
          ∧ (removeTransaction s tid).receipts = s.receipts))
    ∧ (s.transactions.find? (fun t => t.id == tid) = none →
        removeTransaction s tid = s) := by
  constructor
  · intro tx hfind
    refine ⟨?_, ?_, ?_⟩
    · intro rid hrid hne
      unfold removeTransaction
      rw [hfind]
      dsimp only
      rw [hrid]
      dsimp only
      rw [if_pos hne]
      constructor
      · intro t
        simp [List.mem_filter, bne_iff_ne]
      · intro r
        simp [List.mem_filter, bne_iff_ne]
    · intro hrid
      unfold removeTransaction
      rw [hfind]
      dsimp only
      rw [hrid]
      constructor
      · intro t
        simp [List.mem_filter, bne_iff_ne]
      · rfl
    · intro hrid
      unfold removeTransaction
      rw [hfind]
      dsimp only
      rw [hrid]
      dsimp only
      rw [if_neg (fun h => h rfl)]
      constructor
      · intro t
        simp [List.mem_filter, bne_iff_ne]
      · rfl
  · intro hfind
    unfold removeTransaction
    rw [hfind]
    dsimp only
    have : s.transactions.filter (fun t => t.id != tid) = s.transactions := by
      rw [List.filter_eq_self]
      intro t ht
      rw [bne_iff_ne]
      intro hcontra
      exact (List.find?_eq_none.mp hfind t ht) (beq_iff_eq.mpr hcontra)
    rw [this]

/-- Witness for the amended C7: removing an unknown transaction id from
the empty initial state is a no-op. -/
theorem claim_C7_witness :
    initialState.transactions.find? (fun t => t.id == "missing") = none ∧
    removeTransaction initialState "missing" = initialState :=
  ⟨rfl, (claim_C7 initialState "missing").2 rfl⟩

end AuroraFinance
